import Mathlib

/-!
Shallow embedding of the GlimpseTech lead-management service
(`src/app.py`, `src/enums.py`).

Strings are modelled as `List Char` (`Str`).  Python's `str.upper()` is
modelled character-wise by `Char.toUpper`; this is exact on the ASCII
strings the enum-name lookups compare against.  Werkzeug's salted
password hashing is modelled by storing the plaintext password in place
of the hash and letting `check_password` compare for equality (soundness
of the hash scheme is assumed); calling it with Python `None` raises,
which is modelled by an `Except` error, mirroring the `AttributeError`
werkzeug raises when `None.encode` is evaluated.
-/

abbrev Str := List Char

/-- Python `s.upper()`, character-wise (exact on ASCII input). -/
def pyUpper (s : Str) : Str := s.map Char.toUpper

/-- Python `s.replace(" ", "_")`: the pattern is a single character, so the
substring replacement is exactly a character map. -/
def spaceToUnderscore (s : Str) : Str :=
  s.map (fun c => if c = ' ' then '_' else c)

/-- Substring test (`needle` occurs contiguously in the second argument),
used to state that a response message "names" a value. -/
def strStartsWith : Str → Str → Bool
  | [], _ => true
  | _ :: _, [] => false
  | p :: ps, c :: cs => p = c && strStartsWith ps cs

def containsStr (needle : Str) : Str → Bool
  | [] => strStartsWith needle []
  | c :: cs => strStartsWith needle (c :: cs) || containsStr needle cs

/-! ## `src/enums.py` -/

/-- `class Source(Enum)` from `src/enums.py`. -/
inductive Source where
  | COLD_CALL | EVENT | REFERRAL | WEBSITE
  deriving DecidableEq, Repr

/-- The `.value` label of a `Source` member. -/
def Source.value : Source → Str
  | .COLD_CALL => "Cold Call".toList
  | .EVENT => "Event".toList
  | .REFERRAL => "Referral".toList
  | .WEBSITE => "Website".toList

/-- Python `Source[name]` (member lookup by name; `none` models `KeyError`). -/
def Source.ofName (n : Str) : Option Source :=
  if n = "COLD_CALL".toList then some .COLD_CALL
  else if n = "EVENT".toList then some .EVENT
  else if n = "REFERRAL".toList then some .REFERRAL
  else if n = "WEBSITE".toList then some .WEBSITE
  else none

/-- `class InterestLevel(Enum)` from `src/enums.py`. -/
inductive InterestLevel where
  | HIGH | MEDIUM | LOW
  deriving DecidableEq, Repr

def InterestLevel.value : InterestLevel → Str
  | .HIGH => "High".toList
  | .MEDIUM => "Medium".toList
  | .LOW => "Low".toList

/-- Python `InterestLevel[name]`. -/
def InterestLevel.ofName (n : Str) : Option InterestLevel :=
  if n = "HIGH".toList then some .HIGH
  else if n = "MEDIUM".toList then some .MEDIUM
  else if n = "LOW".toList then some .LOW
  else none

/-- `class Status(Enum)` from `src/enums.py`. -/
inductive Status where
  | CLOSED | CONTACTED | NEW | QUALIFIED
  deriving DecidableEq, Repr

def Status.value : Status → Str
  | .CLOSED => "Closed".toList
  | .CONTACTED => "Contacted".toList
  | .NEW => "New".toList
  | .QUALIFIED => "Qualified".toList

/-- Python `Status[name]`. -/
def Status.ofName (n : Str) : Option Status :=
  if n = "CLOSED".toList then some .CLOSED
  else if n = "CONTACTED".toList then some .CONTACTED
  else if n = "NEW".toList then some .NEW
  else if n = "QUALIFIED".toList then some .QUALIFIED
  else none

/-! ## Enum resolution as performed by the handlers (`src/app.py`) -/

/-- `Source[row["Source"].replace(" ", "_").upper()]` (app.py line 116). -/
def resolveSource (s : Str) : Option Source :=
  Source.ofName (pyUpper (spaceToUnderscore s))

/-- `InterestLevel[row["Interest Level"].upper()]` (app.py line 117):
note the code applies `.upper()` only, with no space replacement. -/
def resolveInterestIngest (s : Str) : Option InterestLevel :=
  InterestLevel.ofName (pyUpper s)

/-- `Status[row["Status"].upper()]` (app.py line 118): `.upper()` only. -/
def resolveStatusIngest (s : Str) : Option Status :=
  Status.ofName (pyUpper s)

/-! ## Data model (`src/app.py` lines 20-58) -/

/-- A row of the `leads` table.  `lead_id` is kept as the CSV string the
handler passes to the `Lead` constructor (the database layer's
string-to-integer coercion at flush time is outside `app.py`). -/
structure LeadRec where
  lead_id : Str
  lead_name : Str
  contact_info : Str
  source : Source
  interest_level : InterestLevel
  status : Status
  deriving DecidableEq, Repr

/-- A row of the `salespersons` table; `password` stands for the stored
`password_hash` (see the file comment). -/
structure SalespersonRec where
  id : Nat
  username : Str
  password : Str
  deriving DecidableEq, Repr

/-- Database state: the `leads` table keyed by surrogate id (in insertion
order), the `salespersons` table, and the `salesperson_leads` join table
of `(salesperson_id, lead_id)` pairs.  `nextLeadId` models the
autoincrement counter for `leads.id`. -/
structure DB where
  leads : List (Nat × LeadRec)
  salespersons : List SalespersonRec
  assignments : List (Nat × Nat)
  nextLeadId : Nat
  deriving DecidableEq, Repr

/-- `Salesperson.query.filter_by(username=u).first()`. -/
def findSalesperson (sps : List SalespersonRec) (u : Str) : Option SalespersonRec :=
  sps.find? (fun s => s.username = u)

/-- JSON object bodies returned by the service: each field is present or
absent.  (`message` / `error` / `details` are the only keys app.py emits
on these endpoints.) -/
structure JsonBody where
  message : Option Str := none
  error : Option Str := none
  details : Option Str := none
  deriving DecidableEq, Repr

/-- All text of a JSON body, for stating that a response "names" a value. -/
def JsonBody.allText (b : JsonBody) : Str :=
  b.message.getD [] ++ b.error.getD [] ++ b.details.getD []

/-! ## `POST /ingest_leads` (`src/app.py` lines 94-137) -/

/-- One CSV row, with the columns the handler reads. -/
structure CsvRow where
  leadId : Str
  leadName : Str
  contactInfo : Str
  source : Str
  interestLevel : Str
  status : Str
  assignedSalesperson : Str
  deriving DecidableEq, Repr

/-- The two ways the per-row loop can fail: the explicit
unknown-salesperson return (app.py lines 106-114), or a `KeyError`
escaping from one of the three enum lookups (lines 116-118), carrying
the key that was looked up. -/
inductive IngestErr where
  | notFound (username : Str)
  | keyError (key : Str)
  deriving DecidableEq, Repr

/-- The lead record the loop body constructs from a row (app.py lines
120-127), when all three enum lookups succeed. -/
def rowLead (r : CsvRow) : Option LeadRec := do
  let src ← resolveSource r.source
  let il ← resolveInterestIngest r.interestLevel
  let st ← resolveStatusIngest r.status
  pure { lead_id := r.leadId, lead_name := r.leadName,
         contact_info := r.contactInfo,
         source := src, interest_level := il, status := st }

/-- `lead.salespersons.append(salesperson); db.session.add(lead)`:
one pending lead row plus one pending join row. -/
def addLead (db : DB) (sp : SalespersonRec) (L : LeadRec) : DB :=
  { db with
    leads := db.leads ++ [(db.nextLeadId, L)]
    assignments := db.assignments ++ [(sp.id, db.nextLeadId)]
    nextLeadId := db.nextLeadId + 1 }

/-- The `for row in csvreader:` loop, threading the session's pending
state; an error carries no state because the handler either returns
before the commit or rolls back. -/
def processRows (db : DB) : List CsvRow → Except IngestErr DB
  | [] => .ok db
  | r :: rest =>
    match findSalesperson db.salespersons r.assignedSalesperson with
    | none => .error (.notFound r.assignedSalesperson)
    | some sp =>
      match resolveSource r.source with
      | none => .error (.keyError (pyUpper (spaceToUnderscore r.source)))
      | some src =>
        match resolveInterestIngest r.interestLevel with
        | none => .error (.keyError (pyUpper r.interestLevel))
        | some il =>
          match resolveStatusIngest r.status with
          | none => .error (.keyError (pyUpper r.status))
          | some st =>
            processRows
              (addLead db sp
                { lead_id := r.leadId, lead_name := r.leadName,
                  contact_info := r.contactInfo,
                  source := src, interest_level := il, status := st })
              rest

/-- `{"message": "Leads ingested successfully!"}`. -/
def successBody : JsonBody := { message := some "Leads ingested successfully!".toList }

/-- `{"error": f"Salesperson '{u}' not found"}` — note: no `details` key. -/
def notFoundBody (u : Str) : JsonBody :=
  { error := some ("Salesperson ".toList ++ [Char.ofNat 39] ++ u ++ [Char.ofNat 39]
                   ++ " not found".toList) }

/-- Python `str(KeyError(k))` is the repr of the key: the key wrapped in
single quotes (character 39). -/
def keyErrorStr (k : Str) : Str := [Char.ofNat 39] ++ k ++ [Char.ofNat 39]

/-- `{"error": "Failed to ingest leads", "details": str(e)}`. -/
def ingestFailedBody (details : Str) : JsonBody :=
  { error := some "Failed to ingest leads".toList, details := some details }

/-- The `/ingest_leads` handler: returns `(status, body)` and the
resulting database state.  On the unknown-salesperson branch the handler
returns before `db.session.commit()`, so the committed state is the
input state; on an exception `db.session.rollback()` restores it. -/
def ingest_leads (db : DB) (rows : List CsvRow) : (Nat × JsonBody) × DB :=
  match processRows db rows with
  | .ok db2 => ((201, successBody), db2)
  | .error (.notFound u) => ((400, notFoundBody u), db)
  | .error (.keyError k) => ((400, ingestFailedBody (keyErrorStr k)), db)

/-! ## `get_enum_value` and `POST /leads` (`src/app.py` lines 141-198) -/

/-- `get_enum_value(enum, value)` (app.py lines 141-145), specialised to
each enum; `.error` carries the `ValueError` message
`f"Invalid value for {enum.__name__}: {value}"`. -/
def get_enum_value_source (v : Str) : Except Str Source :=
  match Source.ofName (pyUpper (spaceToUnderscore v)) with
  | some e => .ok e
  | none => .error ("Invalid value for Source: ".toList ++ v)

def get_enum_value_interest (v : Str) : Except Str InterestLevel :=
  match InterestLevel.ofName (pyUpper (spaceToUnderscore v)) with
  | some e => .ok e
  | none => .error ("Invalid value for InterestLevel: ".toList ++ v)

def get_enum_value_status (v : Str) : Except Str Status :=
  match Status.ofName (pyUpper (spaceToUnderscore v)) with
  | some e => .ok e
  | none => .error ("Invalid value for Status: ".toList ++ v)

/-- The JSON body of a `/leads` request; `none` models an absent key
(`data.get(key, default)` supplies the default). -/
structure LeadsJson where
  source : Option (List Str) := none
  interest_level : Option (List Str) := none
  status : Option (List Str) := none
  page : Option Int := none
  per_page : Option Int := none
  deriving DecidableEq, Repr

/-- A Python list comprehension over a fallible function: elements are
evaluated left to right and the first exception propagates. -/
def mapExcept (f : Str → Except Str β) : List Str → Except Str (List β)
  | [] => .ok []
  | v :: vs =>
    match f v with
    | .error e => .error e
    | .ok b =>
      match mapExcept f vs with
      | .error e => .error e
      | .ok bs => .ok (b :: bs)

/-- The three filter list comprehensions (app.py lines 163-176),
evaluated in the order the handler builds them; the first unresolvable
value raises `ValueError`, which the `except` clause turns into the
error response. -/
def resolveFilters (srcs ils sts : List Str) :
    Except Str (List Source × List InterestLevel × List Status) :=
  match mapExcept get_enum_value_source srcs with
  | .error e => .error e
  | .ok s =>
    match mapExcept get_enum_value_interest ils with
    | .error e => .error e
    | .ok i =>
      match mapExcept get_enum_value_status sts with
      | .error e => .error e
      | .ok t => .ok (s, i, t)

/-- The query of app.py lines 159-176: leads joined to the
`salesperson_leads` rows of the authenticated salesperson (the pair
primary key admits at most one join row per lead and salesperson, so the
join contributes each lead at most once), then one `.filter(... in_ ...)`
per non-empty filter list (Python truthiness: an empty list adds no
filter). -/
def filteredLeads (db : DB) (sp : SalespersonRec)
    (ss : List Source) (ils : List InterestLevel) (sts : List Status) :
    List (Nat × LeadRec) :=
  let base := db.leads.filter
    (fun l => db.assignments.any (fun a => a.1 = sp.id && a.2 = l.1))
  let q1 := if ss.isEmpty then base else base.filter (fun l => decide (l.2.source ∈ ss))
  let q2 := if ils.isEmpty then q1
    else q1.filter (fun l => decide (l.2.interest_level ∈ ils))
  if sts.isEmpty then q2 else q2.filter (fun l => decide (l.2.status ∈ sts))

/-- The message of werkzeug's `abort(404)` as seen through `str(e)`. -/
def abort404Msg : Str :=
  ("404 Not Found: The requested URL was not found on the server. "
   ++ "If you entered the URL manually please check your spelling and try again.").toList

/-- Flask-SQLAlchemy `query.paginate(page=page, per_page=per_page)` with
the default `error_out=True` (flask-sqlalchemy 3.x `_prepare_page_args`
plus `QueryPagination`): `page < 1` or `per_page < 1` aborts with 404;
items are `limit(per_page).offset((page-1)*per_page)`; an empty item
list on a page other than 1 aborts with 404; `pages` is
`ceil(total / per_page)` (0 when `total = 0`). -/
def pageSlice (xs : List α) (page per_page : Int) : List α :=
  (xs.drop (((page - 1) * per_page).toNat)).take per_page.toNat

/-- `ceil(total / per_page)`, as the `pages` property computes it. -/
def totalPages (total : Nat) (per_page : Int) : Nat :=
  if total = 0 then 0 else (total + per_page.toNat - 1) / per_page.toNat

def paginate (xs : List α) (page per_page : Int) :
    Except Str (List α × Nat × Nat) :=
  if page < 1 then .error abort404Msg
  else if per_page < 1 then .error abort404Msg
  else
    let items := pageSlice xs page per_page
    if items.isEmpty && page ≠ 1 then .error abort404Msg
    else .ok (items, totalPages xs.length per_page, xs.length)

/-- The serialized form of one lead (app.py lines 183-191): enum fields
are rendered with their `.value` labels. -/
structure LeadOut where
  lead_id : Str
  lead_name : Str
  contact_info : Str
  source : Str
  interest_level : Str
  status : Str
  deriving DecidableEq, Repr

def serializeLead (l : Nat × LeadRec) : LeadOut :=
  { lead_id := l.2.lead_id, lead_name := l.2.lead_name,
    contact_info := l.2.contact_info,
    source := l.2.source.value,
    interest_level := l.2.interest_level.value,
    status := l.2.status.value }

/-- A `/leads` response body: the success page or a JSON error object. -/
inductive RespBody where
  | leadsPage (leads : List LeadOut) (total_pages : Nat) (total_leads : Nat)
  | json (b : JsonBody)
  deriving DecidableEq, Repr

def leadsFailedBody (details : Str) : JsonBody :=
  { error := some "Failed to retrieve leads".toList, details := some details }

/-- The `/leads` handler body `get_salesperson_leads` (app.py lines
150-198), after authentication has produced `sp`. -/
def get_salesperson_leads (db : DB) (sp : SalespersonRec) (data : LeadsJson) :
    Nat × RespBody :=
  let sources := data.source.getD []
  let interest_levels := data.interest_level.getD []
  let statuses := data.status.getD []
  let page := data.page.getD 1
  let per_page := data.per_page.getD 10
  match resolveFilters sources interest_levels statuses with
  | .error msg => (400, .json (leadsFailedBody msg))
  | .ok (ss, ils, sts) =>
    match paginate (filteredLeads db sp ss ils sts) page per_page with
    | .error msg => (400, .json (leadsFailedBody msg))
    | .ok (items, pages, total) =>
      (200, .leadsPage (items.map serializeLead) pages total)

/-! ## Authentication (`src/app.py` lines 54-58, 79-90, 202-213) -/

/-- `check_password_hash` via `Salesperson.check_password` (app.py lines
57-58).  A Python `None` password reaches `password.encode()` inside
werkzeug and raises `AttributeError`; a string compares against the
stored credential. -/
def check_password (sp : SalespersonRec) : Option Str → Except Str Bool
  | none => .error "'NoneType' object has no attribute 'encode'".toList
  | some p => .ok (sp.password = p)

def invalidCredBody : JsonBody := { error := some "Invalid credentials".toList }

def loginFailedBody (details : Str) : JsonBody :=
  { error := some "Failed to login".toList, details := some details }

/-- The `/login` handler (app.py lines 202-213).  `username` and
`password` are `data.get(...)`, hence possibly `None`; a `None` username
matches no row (the column is NOT NULL), and a `None` password raises
inside `check_password`, which the broad `except` turns into a 400. -/
def login (db : DB) (username password : Option Str) : Nat × JsonBody :=
  match username.bind (findSalesperson db.salespersons) with
  | none => (401, invalidCredBody)
  | some sp =>
    match check_password sp password with
    | .error e => (400, loginFailedBody e)
    | .ok false => (401, invalidCredBody)
    | .ok true => (200, { message := some "Login successful".toList })

/-- Parsed HTTP Basic credentials (`request.authorization`). -/
structure AuthHeader where
  username : Str
  password : Str
  deriving DecidableEq, Repr

def authRequiredBody : JsonBody := { error := some "Authentication required".toList }

/-- The checks of the `basic_auth_required` decorator (app.py lines
79-90): a missing header or a falsy (empty) username or password is
rejected before any database access; otherwise the salesperson is looked
up and the password verified (here with a string, so `check_password`
cannot raise).  `.ok` carries the salesperson passed to the handler. -/
def basic_auth_required (db : DB) : Option AuthHeader →
    Except (Nat × JsonBody) SalespersonRec
  | none => .error (401, authRequiredBody)
  | some a =>
    if a.username.isEmpty || a.password.isEmpty then .error (401, authRequiredBody)
    else
      match findSalesperson db.salespersons a.username with
      | none => .error (401, invalidCredBody)
      | some sp =>
        if sp.password = a.password then .ok sp
        else .error (401, invalidCredBody)

/-- A decorated endpoint: the wrapped handler `f` runs only when the
decorator grants access. -/
def wrapAuth (f : SalespersonRec → Nat × RespBody) (db : DB)
    (auth : Option AuthHeader) : Nat × RespBody :=
  match basic_auth_required db auth with
  | .error r => (r.1, .json r.2)
  | .ok sp => f sp

/-- The full `/leads` endpoint: `basic_auth_required` around
`get_salesperson_leads`. -/
def leads_endpoint (db : DB) (auth : Option AuthHeader) (data : LeadsJson) :
    Nat × RespBody :=
  wrapAuth (fun sp => get_salesperson_leads db sp data) db auth

/-! ## The seeded database (`src/app.py` lines 62-75) -/

/-- The demo roster inserted at process start; every account gets the
default password `pass123`. -/
def seedDB : DB :=
  { leads := []
    salespersons :=
      [ { id := 1, username := "Alice".toList, password := "pass123".toList }
      , { id := 2, username := "Diane".toList, password := "pass123".toList }
      , { id := 3, username := "Charlie".toList, password := "pass123".toList }
      , { id := 4, username := "Bob".toList, password := "pass123".toList } ]
    assignments := []
    nextLeadId := 1 }

/-! ## Derived definitions used to state the properties -/

/-- The lead list the per-row loop appends on a successful ingestion,
with surrogate ids starting at `n` (degenerate `[]` tail on an
unresolvable row; the theorems only use it under a validity hypothesis). -/
def newLeads (n : Nat) : List CsvRow → List (Nat × LeadRec)
  | [] => []
  | r :: rs =>
    match rowLead r with
    | some L => (n, L) :: newLeads (n + 1) rs
    | none => []

/-- The join rows the per-row loop appends on a successful ingestion. -/
def newAssigns (sps : List SalespersonRec) (n : Nat) : List CsvRow → List (Nat × Nat)
  | [] => []
  | r :: rs =>
    match findSalesperson sps r.assignedSalesperson with
    | some sp => (sp.id, n) :: newAssigns sps (n + 1) rs
    | none => []

/-- Modelled from the spec's words (section 4.3): a lead matches a `/leads`
request when it is assigned to the authenticated salesperson via the join
relation and, for each non-empty filter list, its corresponding field is
one of the listed values (OR within a field, AND across fields). -/
def SpecMatches (db : DB) (sp : SalespersonRec)
    (ss : List Source) (ils : List InterestLevel) (sts : List Status)
    (l : Nat × LeadRec) : Prop :=
  (sp.id, l.1) ∈ db.assignments ∧
  (ss ≠ [] → l.2.source ∈ ss) ∧
  (ils ≠ [] → l.2.interest_level ∈ ils) ∧
  (sts ≠ [] → l.2.status ∈ sts)

instance (db : DB) (sp : SalespersonRec) (ss : List Source)
    (ils : List InterestLevel) (sts : List Status) (l : Nat × LeadRec) :
    Decidable (SpecMatches db sp ss ils sts l) := by
  unfold SpecMatches; infer_instance

/-! ## Concrete example data for witnesses and counterexamples -/

/-- The first seeded salesperson. -/
def aliceSP : SalespersonRec :=
  { id := 1, username := "Alice".toList, password := "pass123".toList }

/-- A fully valid CSV row assigned to Alice. -/
def rowAlice : CsvRow :=
  { leadId := "1".toList, leadName := "Acme".toList, contactInfo := "a@x.com".toList,
    source := "cold call".toList, interestLevel := "High".toList,
    status := "New".toList, assignedSalesperson := "Alice".toList }

/-- `rowAlice` with an unresolvable Source value. -/
def rowBadSource : CsvRow := { rowAlice with source := "Nope".toList }

/-- `rowAlice` assigned to a username absent from the roster. -/
def rowUnknownSP : CsvRow := { rowAlice with assignedSalesperson := "Zed".toList }

/-- A second valid row, assigned to Bob. -/
def rowBob : CsvRow :=
  { leadId := "2".toList, leadName := "Globex".toList, contactInfo := "b@x.com".toList,
    source := "Referral".toList, interestLevel := "low".toList,
    status := "Qualified".toList, assignedSalesperson := "Bob".toList }

/-- A lead row used to populate example databases. -/
def demoLead : LeadRec :=
  { lead_id := "7".toList, lead_name := "Lead".toList, contact_info := "l@x.com".toList,
    source := .WEBSITE, interest_level := .MEDIUM, status := .NEW }

/-- The lead record ingestion resolves from `rowAlice`. -/
def rowAliceLead : LeadRec :=
  { lead_id := "1".toList, lead_name := "Acme".toList, contact_info := "a@x.com".toList,
    source := .COLD_CALL, interest_level := .HIGH, status := .NEW }

/-- The seeded roster plus fifteen leads, all assigned to Alice. -/
def db15 : DB :=
  { leads := (List.range 15).map (fun i => (i + 1, demoLead))
    salespersons := seedDB.salespersons
    assignments := (List.range 15).map (fun i => (1, i + 1))
    nextLeadId := 16 }

/-- A `/leads` request body with no filters and explicit pagination. -/
def req15 : LeadsJson := { page := some 1, per_page := some 10 }

/-! ## Theorems -/

theorem spaceToUnderscore_of_not_mem {s : Str} (h : ' ' ∉ s) :
    spaceToUnderscore s = s := by
  unfold spaceToUnderscore
  induction s with
  | nil => rfl
  | cons c cs ih =>
    simp only [List.map_cons, List.cons.injEq]
    refine ⟨?_, ih (fun hc => h (List.mem_cons_of_mem _ hc))⟩
    have : c ≠ ' ' := fun hc => h (hc ▸ List.mem_cons_self _ _)
    simp [this]

theorem space_mem_pyUpper {s : Str} (h : ' ' ∈ s) : ' ' ∈ pyUpper s := by
  have h1 := List.mem_map_of_mem Char.toUpper h
  have e : Char.toUpper ' ' = ' ' := by decide
  exact e ▸ h1

theorem underscore_mem_pyUpper_spaceToUnderscore {s : Str} (h : ' ' ∈ s) :
    '_' ∈ pyUpper (spaceToUnderscore s) := by
  have h1 : '_' ∈ spaceToUnderscore s := by
    have h2 := List.mem_map_of_mem (fun c => if c = ' ' then '_' else c) h
    have e : (fun c => if c = ' ' then '_' else c) ' ' = '_' := by decide
    exact e ▸ h2
  have h3 := List.mem_map_of_mem Char.toUpper h1
  have e2 : Char.toUpper '_' = '_' := by decide
  exact e2 ▸ h3

theorem interestOfName_eq_none {n : Str} (h : ' ' ∈ n ∨ '_' ∈ n) :
    InterestLevel.ofName n = none := by
  unfold InterestLevel.ofName
  split_ifs with h1 h2 h3 <;> first
    | rfl
    | (subst_vars; rcases h with h | h <;> revert h <;> decide)

theorem statusOfName_eq_none {n : Str} (h : ' ' ∈ n ∨ '_' ∈ n) :
    Status.ofName n = none := by
  unfold Status.ofName
  split_ifs with h1 h2 h3 h4 <;> first
    | rfl
    | (subst_vars; rcases h with h | h <;> revert h <;> decide)

theorem interest_norm_irrelevant (s : Str) :
    InterestLevel.ofName (pyUpper (spaceToUnderscore s)) =
      InterestLevel.ofName (pyUpper s) := by
  by_cases h : ' ' ∈ s
  · rw [interestOfName_eq_none (Or.inr (underscore_mem_pyUpper_spaceToUnderscore h)),
        interestOfName_eq_none (Or.inl (space_mem_pyUpper h))]
  · rw [spaceToUnderscore_of_not_mem h]

theorem status_norm_irrelevant (s : Str) :
    Status.ofName (pyUpper (spaceToUnderscore s)) = Status.ofName (pyUpper s) := by
  by_cases h : ' ' ∈ s
  · rw [statusOfName_eq_none (Or.inr (underscore_mem_pyUpper_spaceToUnderscore h)),
        statusOfName_eq_none (Or.inl (space_mem_pyUpper h))]
  · rw [spaceToUnderscore_of_not_mem h]

/-- C2: for each of the three enum columns, the handler's lookup behaves
exactly as "replace spaces with underscores, uppercase, resolve against
the enum": literally so for Source, and extensionally so for Interest
Level and Status (their member names contain neither spaces nor
underscores, so the skipped replacement never changes the result); in
particular any string matching a member name after that normalization
resolves, e.g. "cold call". -/
theorem c2_ingest_normalization (s : Str) :
    resolveSource s = Source.ofName (pyUpper (spaceToUnderscore s)) ∧
    resolveInterestIngest s = InterestLevel.ofName (pyUpper (spaceToUnderscore s)) ∧
    resolveStatusIngest s = Status.ofName (pyUpper (spaceToUnderscore s)) ∧
    resolveSource "cold call".toList = some Source.COLD_CALL := by
  refine ⟨rfl, ?_, ?_, by decide⟩
  · exact (interest_norm_irrelevant s).symm
  · exact (status_norm_irrelevant s).symm

/-- C3 counterexample: a `/login` probe with a null password receives 400
(from the exception inside `check_password_hash`) when the username
exists, but 401 when it does not — the two responses differ, so the
response does reveal whether the username existed, contradicting the
claim for the missing/null-password case. -/
theorem c3_login_counterexample :
    (login seedDB (some "Alice".toList) none).1 = 400 ∧
    (login seedDB (some "Zed".toList) none).1 = 401 ∧
    login seedDB (some "Alice".toList) none ≠ login seedDB (some "Zed".toList) none := by
  decide

/-- C3 amended: correct credentials give 200; when the supplied password
is a string, a wrong password and an unknown username give the identical
401 `Invalid credentials` response; but a missing/null password gives
400 for a known username and 401 for an unknown one, so that case leaks
username existence. -/
theorem c3_login_behaviour (db : DB) (u p : Str) :
    (∀ sp, findSalesperson db.salespersons u = some sp → sp.password = p →
      login db (some u) (some p) = (200, { message := some "Login successful".toList })) ∧
    (findSalesperson db.salespersons u = none →
      ∀ pw : Option Str, login db (some u) pw = (401, invalidCredBody)) ∧
    (∀ sp, findSalesperson db.salespersons u = some sp → sp.password ≠ p →
      login db (some u) (some p) = (401, invalidCredBody)) ∧
    (∀ sp, findSalesperson db.salespersons u = some sp →
      (login db (some u) none).1 = 400) := by
  refine ⟨?_, ?_, ?_, ?_⟩
  · intro sp hf hp
    simp [login, Option.bind, hf, check_password, hp]
  · intro hf pw
    simp [login, Option.bind, hf]
  · intro sp hf hp
    simp [login, Option.bind, hf, check_password, hp]
  · intro sp hf
    simp [login, Option.bind, hf, check_password]

/-- Witness for the amended C3 on the seeded roster. -/
theorem c3_login_behaviour_witness :
    login seedDB (some "Alice".toList) (some "pass123".toList)
      = (200, { message := some "Login successful".toList }) ∧
    login seedDB (some "Zed".toList) (some "pass123".toList) = (401, invalidCredBody) ∧
    login seedDB (some "Alice".toList) (some "nope".toList) = (401, invalidCredBody) ∧
    (login seedDB (some "Alice".toList) none).1 = 400 :=
  ⟨(c3_login_behaviour seedDB "Alice".toList "pass123".toList).1 aliceSP (by decide) (by decide),
   (c3_login_behaviour seedDB "Zed".toList "pass123".toList).2.1 (by decide) _,
   (c3_login_behaviour seedDB "Alice".toList "nope".toList).2.2.1 aliceSP (by decide) (by decide),
   (c3_login_behaviour seedDB "Alice".toList "pass123".toList).2.2.2 aliceSP (by decide)⟩

/-- C8: a `/leads` request with a missing Basic auth header, empty
credentials, or credentials matching no stored salesperson is answered
401 by the decorator: the outcome is the same for every wrapped handler
(so the handler never executes), and for a missing header it is the same
for every database state (so no database query is performed). -/
theorem c8_auth_before_handler (db : DB) (auth : Option AuthHeader)
    (h : auth = none ∨
      (∃ a, auth = some a ∧ (a.username.isEmpty || a.password.isEmpty) = true) ∨
      (∃ a, auth = some a ∧
        ∀ sp ∈ db.salespersons, sp.username ≠ a.username ∨ sp.password ≠ a.password)) :
    (∀ f g : SalespersonRec → Nat × RespBody, wrapAuth f db auth = wrapAuth g db auth) ∧
    (∀ f : SalespersonRec → Nat × RespBody, (wrapAuth f db auth).1 = 401) ∧
    (auth = none → ∀ (db2 : DB) (f : SalespersonRec → Nat × RespBody),
      wrapAuth f db auth = wrapAuth f db2 auth) := by
  have hd : ∃ b, basic_auth_required db auth = .error (401, b) := by
    rcases h with h | ⟨a, ha, he⟩ | ⟨a, ha, hm⟩
    · subst h; exact ⟨authRequiredBody, rfl⟩
    · subst ha
      exact ⟨authRequiredBody, by simp [basic_auth_required, he]⟩
    · subst ha
      by_cases he : (a.username.isEmpty || a.password.isEmpty) = true
      · exact ⟨authRequiredBody, by simp [basic_auth_required, he]⟩
      · cases hf : findSalesperson db.salespersons a.username with
        | none =>
          exact ⟨invalidCredBody, by simp [basic_auth_required, he, hf]⟩
        | some sp =>
          have hmem := List.mem_of_find?_eq_some hf
          have hname : sp.username = a.username := by
            have := List.find?_some hf
            simpa using this
          have hpw : sp.password ≠ a.password := by
            rcases hm sp hmem with h1 | h1
            · exact absurd hname h1
            · exact h1
          exact ⟨invalidCredBody, by simp [basic_auth_required, he, hf, hpw]⟩
  obtain ⟨b, hb⟩ := hd
  refine ⟨?_, ?_, ?_⟩
  · intro f g; simp [wrapAuth, hb]
  · intro f; simp [wrapAuth, hb]
  · intro hnone db2 f
    subst hnone
    simp [wrapAuth, basic_auth_required]

/-- Witness for C8: with no auth header, `/leads` answers 401 on the
seeded database and identically on a completely different database
state, whatever data the handler would have served. -/
theorem c8_auth_before_handler_witness :
    (leads_endpoint seedDB none { status := some ["Closed".toList] }).1 = 401 ∧
    leads_endpoint seedDB none { status := some ["Closed".toList] }
      = leads_endpoint (DB.mk [] [] [] 0) none { status := some ["Closed".toList] } :=
  ⟨(c8_auth_before_handler seedDB none (Or.inl rfl)).2.1 _,
   ((c8_auth_before_handler seedDB none (Or.inl rfl)).1 _
      (fun sp => get_salesperson_leads (DB.mk [] [] [] 0) sp
        { status := some ["Closed".toList] })).trans
    ((c8_auth_before_handler seedDB none (Or.inl rfl)).2.2 rfl (DB.mk [] [] [] 0) _)⟩

/-- C9 counterexample: an ingestion whose CSV references the unknown
salesperson `Zed` is answered 400, but the JSON body has no `details`
field — the claimed `{error, details}` shape fails on the
unknown-salesperson branch. -/
theorem c9_shape_counterexample :
    (ingest_leads seedDB [rowUnknownSP]).1.1 = 400 ∧
    (ingest_leads seedDB [rowUnknownSP]).1.2.error.isSome = true ∧
    (ingest_leads seedDB [rowUnknownSP]).1.2.details = none := by
  decide

/-- C9 amended: every `/ingest_leads` response is either 201 with the
success message or 400 with an `error` field; the generic exception
branch also carries `details`, while the unknown-salesperson branch
carries only the `error` naming the username, with no `details`. -/
theorem c9_ingest_response_shape (db : DB) (rows : List CsvRow) :
    ((ingest_leads db rows).1.1 = 201 ∧ (ingest_leads db rows).1.2 = successBody) ∨
    ((ingest_leads db rows).1.1 = 400 ∧ (ingest_leads db rows).1.2.error.isSome = true ∧
      ((∃ k, (ingest_leads db rows).1.2 = ingestFailedBody k) ∨
       (∃ u, (ingest_leads db rows).1.2 = notFoundBody u ∧
         (ingest_leads db rows).1.2.details = none))) := by
  cases hp : processRows db rows with
  | ok db2 => exact Or.inl (by simp [ingest_leads, hp])
  | error e =>
    cases e with
    | notFound u =>
      refine Or.inr ⟨by simp [ingest_leads, hp], ?_, Or.inr ⟨u, by simp [ingest_leads, hp], ?_⟩⟩
      · simp [ingest_leads, hp, notFoundBody]
      · simp [ingest_leads, hp, notFoundBody]
    | keyError k =>
      refine Or.inr ⟨by simp [ingest_leads, hp], ?_, Or.inl ⟨keyErrorStr k, by simp [ingest_leads, hp]⟩⟩
      simp [ingest_leads, hp, ingestFailedBody]

theorem mapExcept_error_mem {f : Str → Except Str β} :
    ∀ {l : List Str} {e : Str}, mapExcept f l = .error e → ∃ v ∈ l, f v = .error e := by
  intro l
  induction l with
  | nil => intro e h; simp [mapExcept] at h
  | cons v vs ih =>
    intro e h
    unfold mapExcept at h
    cases hv : f v with
    | error e2 =>
      rw [hv] at h
      cases h
      exact ⟨v, List.mem_cons_self _ _, hv⟩
    | ok b =>
      rw [hv] at h
      cases hrest : mapExcept f vs with
      | error e2 =>
        rw [hrest] at h
        cases h
        obtain ⟨w, hw, hfw⟩ := ih hrest
        exact ⟨w, List.mem_cons_of_mem _ hw, hfw⟩
      | ok bs => rw [hrest] at h; cases h

theorem mapExcept_error_of_mem {f : Str → Except Str β} :
    ∀ {l : List Str} {v : Str} {e : Str}, v ∈ l → f v = .error e →
      ∃ e2, mapExcept f l = .error e2 := by
  intro l
  induction l with
  | nil => intro v e hv; cases hv
  | cons w ws ih =>
    intro v e hv hfv
    rcases List.mem_cons.mp hv with h | h
    · subst h
      exact ⟨e, by simp [mapExcept, hfv]⟩
    · cases hw : f w with
      | error e2 => exact ⟨e2, by simp [mapExcept, hw]⟩
      | ok b =>
        obtain ⟨e2, he2⟩ := ih h hfv
        exact ⟨e2, by simp [mapExcept, hw, he2]⟩

theorem strStartsWith_self : ∀ s : Str, strStartsWith s s = true := by
  intro s
  induction s with
  | nil => rfl
  | cons c cs ih => simp [strStartsWith, ih]

theorem containsStr_append_right (pre v : Str) : containsStr v (pre ++ v) = true := by
  induction pre with
  | nil =>
    cases v with
    | nil => rfl
    | cons c cs => simp [containsStr, strStartsWith_self]
  | cons p ps ih => simp [containsStr, ih]

/-- C6: a `/leads` request containing an unresolvable filter value is
answered 400 with the `Failed to retrieve leads` error body; its
`details` string is exactly the `ValueError` message of an actually
unresolvable value from one of the request's filter lists, and it names
that value; no lead data is part of the response. -/
theorem c6_invalid_filter_value (db : DB) (sp : SalespersonRec) (data : LeadsJson)
    (h : (∃ v ∈ data.source.getD [], Source.ofName (pyUpper (spaceToUnderscore v)) = none) ∨
      (∃ v ∈ data.interest_level.getD [],
        InterestLevel.ofName (pyUpper (spaceToUnderscore v)) = none) ∨
      (∃ v ∈ data.status.getD [], Status.ofName (pyUpper (spaceToUnderscore v)) = none)) :
    ∃ v msg, get_salesperson_leads db sp data = (400, .json (leadsFailedBody msg)) ∧
      containsStr v msg = true ∧
      ((v ∈ data.source.getD [] ∧ get_enum_value_source v = .error msg) ∨
       (v ∈ data.interest_level.getD [] ∧ get_enum_value_interest v = .error msg) ∨
       (v ∈ data.status.getD [] ∧ get_enum_value_status v = .error msg)) := by
  have hres : ∃ msg, resolveFilters (data.source.getD []) (data.interest_level.getD [])
      (data.status.getD []) = .error msg := by
    rcases h with ⟨v, hv, hn⟩ | ⟨v, hv, hn⟩ | ⟨v, hv, hn⟩
    · have hfv : get_enum_value_source v
          = .error ("Invalid value for Source: ".toList ++ v) := by
        simp [get_enum_value_source, hn]
      obtain ⟨e2, he2⟩ := mapExcept_error_of_mem hv hfv
      exact ⟨e2, by simp [resolveFilters, he2]⟩
    · have hfv : get_enum_value_interest v
          = .error ("Invalid value for InterestLevel: ".toList ++ v) := by
        simp [get_enum_value_interest, hn]
      obtain ⟨e2, he2⟩ := mapExcept_error_of_mem hv hfv
      cases hs : mapExcept get_enum_value_source (data.source.getD []) with
      | error e3 => exact ⟨e3, by simp [resolveFilters, hs]⟩
      | ok bs => exact ⟨e2, by simp [resolveFilters, hs, he2]⟩
    · have hfv : get_enum_value_status v
          = .error ("Invalid value for Status: ".toList ++ v) := by
        simp [get_enum_value_status, hn]
      obtain ⟨e2, he2⟩ := mapExcept_error_of_mem hv hfv
      cases hs : mapExcept get_enum_value_source (data.source.getD []) with
      | error e3 => exact ⟨e3, by simp [resolveFilters, hs]⟩
      | ok bs =>
        cases hi : mapExcept get_enum_value_interest (data.interest_level.getD []) with
        | error e3 => exact ⟨e3, by simp [resolveFilters, hs, hi]⟩
        | ok bi => exact ⟨e2, by simp [resolveFilters, hs, hi, he2]⟩
  obtain ⟨msg, hmsg⟩ := hres
  have hout : get_salesperson_leads db sp data = (400, .json (leadsFailedBody msg)) := by
    simp [get_salesperson_leads, hmsg]
  -- trace the error back to the offending value
  have hsrc : ∃ v, containsStr v msg = true ∧
      ((v ∈ data.source.getD [] ∧ get_enum_value_source v = .error msg) ∨
       (v ∈ data.interest_level.getD [] ∧ get_enum_value_interest v = .error msg) ∨
       (v ∈ data.status.getD [] ∧ get_enum_value_status v = .error msg)) := by
    unfold resolveFilters at hmsg
    cases hs : mapExcept get_enum_value_source (data.source.getD []) with
    | error e3 =>
      rw [hs] at hmsg
      cases hmsg
      obtain ⟨v, hv, hfv⟩ := mapExcept_error_mem hs
      refine ⟨v, ?_, Or.inl ⟨hv, hfv⟩⟩
      unfold get_enum_value_source at hfv
      cases hn : Source.ofName (pyUpper (spaceToUnderscore v)) with
      | some e => rw [hn] at hfv; cases hfv
      | none =>
        rw [hn] at hfv
        cases hfv
        exact containsStr_append_right _ v
    | ok bs =>
      rw [hs] at hmsg
      cases hi : mapExcept get_enum_value_interest (data.interest_level.getD []) with
      | error e3 =>
        rw [hi] at hmsg
        cases hmsg
        obtain ⟨v, hv, hfv⟩ := mapExcept_error_mem hi
        refine ⟨v, ?_, Or.inr (Or.inl ⟨hv, hfv⟩)⟩
        unfold get_enum_value_interest at hfv
        cases hn : InterestLevel.ofName (pyUpper (spaceToUnderscore v)) with
        | some e => rw [hn] at hfv; cases hfv
        | none =>
          rw [hn] at hfv
          cases hfv
          exact containsStr_append_right _ v
      | ok bi =>
        rw [hi] at hmsg
        cases ht : mapExcept get_enum_value_status (data.status.getD []) with
        | error e3 =>
          rw [ht] at hmsg
          cases hmsg
          obtain ⟨v, hv, hfv⟩ := mapExcept_error_mem ht
          refine ⟨v, ?_, Or.inr (Or.inr ⟨hv, hfv⟩)⟩
          unfold get_enum_value_status at hfv
          cases hn : Status.ofName (pyUpper (spaceToUnderscore v)) with
          | some e => rw [hn] at hfv; cases hfv
          | none =>
            rw [hn] at hfv
            cases hfv
            exact containsStr_append_right _ v
        | ok bt => rw [ht] at hmsg; cases hmsg
  obtain ⟨v, hc, hcase⟩ := hsrc
  exact ⟨v, msg, hout, hc, hcase⟩

/-- Witness for C6: filtering by the unrecognized status `Oops` yields
the 400 error naming `Oops`. -/
theorem c6_invalid_filter_value_witness :
    ∃ v msg,
      get_salesperson_leads seedDB aliceSP { status := some ["Oops".toList] }
        = (400, .json (leadsFailedBody msg)) ∧
      containsStr v msg = true ∧
      ((v ∈ ({ status := some ["Oops".toList]} : LeadsJson).source.getD [] ∧
          get_enum_value_source v = .error msg) ∨
       (v ∈ ({ status := some ["Oops".toList]} : LeadsJson).interest_level.getD [] ∧
          get_enum_value_interest v = .error msg) ∨
       (v ∈ ({ status := some ["Oops".toList]} : LeadsJson).status.getD [] ∧
          get_enum_value_status v = .error msg)) :=
  c6_invalid_filter_value seedDB aliceSP { status := some ["Oops".toList] }
    (Or.inr (Or.inr ⟨"Oops".toList, by decide⟩))

/-- C10: an authenticated `/leads` request whose pagination is out of
range for the filtered result set — `page` or `per_page` below 1, or a
page other than 1 whose slice of the filtered set is empty — is answered
400 (the `error_out` abort caught by the handler), not 200 with an empty
list. -/
theorem c10_out_of_range_page (db : DB) (sp : SalespersonRec) (data : LeadsJson)
    (ss : List Source) (ils : List InterestLevel) (sts : List Status)
    (hres : resolveFilters (data.source.getD []) (data.interest_level.getD [])
        (data.status.getD []) = .ok (ss, ils, sts))
    (h : data.page.getD 1 < 1 ∨ data.per_page.getD 10 < 1 ∨
      (data.page.getD 1 ≠ 1 ∧
        (filteredLeads db sp ss ils sts).length ≤
          ((data.page.getD 1 - 1) * data.per_page.getD 10).toNat)) :
    get_salesperson_leads db sp data = (400, .json (leadsFailedBody abort404Msg)) := by
  have hpag : paginate (filteredLeads db sp ss ils sts)
      (data.page.getD 1) (data.per_page.getD 10) = .error abort404Msg := by
    unfold paginate
    rcases h with h | h | ⟨h1, h2⟩
    · simp [h]
    · by_cases hp : data.page.getD 1 < 1
      · simp [hp]
      · simp [hp, h]
    · by_cases hp : data.page.getD 1 < 1
      · simp [hp]
      · by_cases hpp : data.per_page.getD 10 < 1
        · simp [hp, hpp]
        · have hd : (filteredLeads db sp ss ils sts).drop
              ((data.page.getD 1 - 1) * data.per_page.getD 10).toNat = [] :=
            List.drop_eq_nil_of_le h2
          simp [hp, hpp, pageSlice, hd, h1]
  simp [get_salesperson_leads, hres, hpag]

/-- Witness for C10: page 2 of an empty result set gives the 400 error
response, not a 200 with an empty list. -/
theorem c10_out_of_range_page_witness :
    get_salesperson_leads seedDB aliceSP { page := some 2 }
      = (400, .json (leadsFailedBody abort404Msg)) :=
  c10_out_of_range_page seedDB aliceSP { page := some 2 } [] [] [] rfl
    (Or.inr (Or.inr (by decide)))

/-- C4: with `page` and `per_page` absent they default to 1 and 10 (the
response is identical to an explicit `page=1, per_page=10` request), and
when exactly 15 leads match the filters and `page=1, per_page=10`, the
response carries exactly 10 items, `total_pages = 2` and
`total_leads = 15`. -/
theorem c4_defaults_and_pagination (db : DB) (sp : SalespersonRec) (data : LeadsJson) :
    (get_salesperson_leads db sp { data with page := none, per_page := none }
      = get_salesperson_leads db sp { data with page := some 1, per_page := some 10 }) ∧
    (∀ ss ils sts,
      resolveFilters (data.source.getD []) (data.interest_level.getD [])
          (data.status.getD []) = .ok (ss, ils, sts) →
      (filteredLeads db sp ss ils sts).length = 15 →
      data.page = some 1 → data.per_page = some 10 →
      get_salesperson_leads db sp data
        = (200, .leadsPage (((filteredLeads db sp ss ils sts).take 10).map serializeLead) 2 15) ∧
      ((filteredLeads db sp ss ils sts).take 10).length = 10) := by
  constructor
  · rfl
  · intro ss ils sts hres hlen hpage hpp
    have h10 : ((filteredLeads db sp ss ils sts).take 10).length = 10 := by
      simp [List.length_take, hlen]
    refine ⟨?_, h10⟩
    have hpag : paginate (filteredLeads db sp ss ils sts) 1 10
        = .ok ((filteredLeads db sp ss ils sts).take 10, 2, 15) := by
      unfold paginate
      simp [pageSlice, totalPages, hlen]
    simp [get_salesperson_leads, hres, hpage, hpp, hpag]

/-- Witness for C4: fifteen leads assigned to Alice, page 1 at 10 per
page: ten items, two pages, fifteen total. -/
theorem c4_defaults_and_pagination_witness :
    get_salesperson_leads db15 aliceSP req15
      = (200, .leadsPage (((filteredLeads db15 aliceSP [] [] []).take 10).map serializeLead) 2 15) ∧
    ((filteredLeads db15 aliceSP [] [] []).take 10).length = 10 :=
  (c4_defaults_and_pagination db15 aliceSP req15).2 [] [] [] rfl (by decide) rfl rfl

theorem mem_base_filter_iff (db : DB) (sp : SalespersonRec) (l : Nat × LeadRec) :
    (db.assignments.any (fun a => a.1 = sp.id && a.2 = l.1) = true)
      ↔ (sp.id, l.1) ∈ db.assignments := by
  simp only [List.any_eq_true, Bool.and_eq_true, decide_eq_true_eq]
  constructor
  · rintro ⟨a, ha, h1, h2⟩
    have he : (sp.id, l.1) = a := by
      cases a
      simp_all
    rw [he]
    exact ha
  · intro h
    exact ⟨(sp.id, l.1), h, rfl, rfl⟩

/-- C5: the result set of an authenticated `/leads` request is exactly
the leads assigned to the authenticated salesperson whose fields match
every non-empty filter list (OR within a field, AND across fields), and
pagination is applied to that filtered set: on a 200 response the items
are the requested page slice of the filtered set and the totals are its
length and page count. -/
theorem c5_filter_semantics (db : DB) (sp : SalespersonRec) (data : LeadsJson)
    (ss : List Source) (ils : List InterestLevel) (sts : List Status)
    (hres : resolveFilters (data.source.getD []) (data.interest_level.getD [])
        (data.status.getD []) = .ok (ss, ils, sts)) :
    (∀ l, l ∈ filteredLeads db sp ss ils sts ↔
      l ∈ db.leads ∧ SpecMatches db sp ss ils sts l) ∧
    (1 ≤ data.page.getD 1 → 1 ≤ data.per_page.getD 10 →
      ¬(pageSlice (filteredLeads db sp ss ils sts) (data.page.getD 1)
          (data.per_page.getD 10) = [] ∧ data.page.getD 1 ≠ 1) →
      get_salesperson_leads db sp data
        = (200, .leadsPage
            ((pageSlice (filteredLeads db sp ss ils sts) (data.page.getD 1)
              (data.per_page.getD 10)).map serializeLead)
            (totalPages (filteredLeads db sp ss ils sts).length (data.per_page.getD 10))
            (filteredLeads db sp ss ils sts).length)) := by
  constructor
  · intro l
    rcases ss with _ | ⟨s0, ss2⟩ <;> rcases ils with _ | ⟨i0, ils2⟩ <;>
      rcases sts with _ | ⟨t0, sts2⟩ <;>
      simp [filteredLeads, SpecMatches, List.mem_filter, mem_base_filter_iff] <;>
      tauto
  · intro hp hpp hne
    have h1 : ¬(data.page.getD 1 < 1) := not_lt.mpr hp
    have h2 : ¬(data.per_page.getD 10 < 1) := not_lt.mpr hpp
    have hcond : ((pageSlice (filteredLeads db sp ss ils sts) (data.page.getD 1)
        (data.per_page.getD 10)).isEmpty && data.page.getD 1 ≠ 1) = false := by
      by_cases hpg : data.page.getD 1 = 1
      · simp [hpg]
      · have hsl : ¬(pageSlice (filteredLeads db sp ss ils sts) (data.page.getD 1)
            (data.per_page.getD 10) = []) := fun hsl => hne ⟨hsl, hpg⟩
        simp [List.isEmpty_iff, hsl]
    have hpag : paginate (filteredLeads db sp ss ils sts) (data.page.getD 1)
        (data.per_page.getD 10)
        = .ok (pageSlice (filteredLeads db sp ss ils sts) (data.page.getD 1)
            (data.per_page.getD 10),
          totalPages (filteredLeads db sp ss ils sts).length (data.per_page.getD 10),
          (filteredLeads db sp ss ils sts).length) := by
      unfold paginate
      simp [h1, h2, hcond]
      intro hsl
      by_contra hpg
      exact hne ⟨hsl, hpg⟩
    simp [get_salesperson_leads, hres, hpag]

/-- Witness for C5 on the fifteen-lead database with no filters. -/
theorem c5_filter_semantics_witness :
    ((1, demoLead) ∈ filteredLeads db15 aliceSP [] [] [] ↔
      (1, demoLead) ∈ db15.leads ∧ SpecMatches db15 aliceSP [] [] [] (1, demoLead)) ∧
    get_salesperson_leads db15 aliceSP req15
      = (200, .leadsPage
          ((pageSlice (filteredLeads db15 aliceSP [] [] []) (req15.page.getD 1)
            (req15.per_page.getD 10)).map serializeLead)
          (totalPages (filteredLeads db15 aliceSP [] [] []).length (req15.per_page.getD 10))
          (filteredLeads db15 aliceSP [] [] []).length) :=
  ⟨(c5_filter_semantics db15 aliceSP req15 [] [] [] rfl).1 (1, demoLead),
   (c5_filter_semantics db15 aliceSP req15 [] [] [] rfl).2 (by decide) (by decide) (by decide)⟩

theorem rowLead_inv {r : CsvRow} {L : LeadRec} (hL : rowLead r = some L) :
    resolveSource r.source = some L.source ∧
    resolveInterestIngest r.interestLevel = some L.interest_level ∧
    resolveStatusIngest r.status = some L.status ∧
    L.lead_id = r.leadId ∧ L.lead_name = r.leadName ∧ L.contact_info = r.contactInfo := by
  cases hs : resolveSource r.source with
  | none => simp [rowLead, hs] at hL
  | some src =>
    cases hi2 : resolveInterestIngest r.interestLevel with
    | none => simp [rowLead, hs, hi2] at hL
    | some il =>
      cases hst : resolveStatusIngest r.status with
      | none => simp [rowLead, hs, hi2, hst] at hL
      | some st =>
        simp [rowLead, hs, hi2, hst] at hL
        subst hL
        simp [hs, hi2, hst]

theorem processRows_cons_valid (db : DB) (r : CsvRow) (rs : List CsvRow)
    (sp : SalespersonRec) (L : LeadRec)
    (hf : findSalesperson db.salespersons r.assignedSalesperson = some sp)
    (hL : rowLead r = some L) :
    processRows db (r :: rs) = processRows (addLead db sp L) rs := by
  obtain ⟨h1, h2, h3, h4, h5, h6⟩ := rowLead_inv hL
  have hrec : LeadRec.mk r.leadId r.leadName r.contactInfo
      L.source L.interest_level L.status = L := by
    cases L
    simp_all
  simp [processRows, hf, h1, h2, h3, hrec]

theorem processRows_cons_notFound (db : DB) (r : CsvRow) (rs : List CsvRow)
    (hf : findSalesperson db.salespersons r.assignedSalesperson = none) :
    processRows db (r :: rs) = .error (.notFound r.assignedSalesperson) := by
  simp [processRows, hf]

theorem processRows_cons_invalid (db : DB) (r : CsvRow) (rs : List CsvRow)
    (sp : SalespersonRec)
    (hf : findSalesperson db.salespersons r.assignedSalesperson = some sp)
    (hL : rowLead r = none) :
    ∃ k, processRows db (r :: rs) = .error (.keyError k) := by
  cases hs : resolveSource r.source with
  | none => exact ⟨pyUpper (spaceToUnderscore r.source), by simp [processRows, hf, hs]⟩
  | some src =>
    cases hi2 : resolveInterestIngest r.interestLevel with
    | none => exact ⟨pyUpper r.interestLevel, by simp [processRows, hf, hs, hi2]⟩
    | some il =>
      cases hst : resolveStatusIngest r.status with
      | none => exact ⟨pyUpper r.status, by simp [processRows, hf, hs, hi2, hst]⟩
      | some st => simp [rowLead, hs, hi2, hst] at hL

theorem processRows_ok_found :
    ∀ (rows : List CsvRow) (db db2 : DB), processRows db rows = .ok db2 →
      ∀ r ∈ rows, (findSalesperson db.salespersons r.assignedSalesperson).isSome = true := by
  intro rows
  induction rows with
  | nil => intro db db2 h r hr; cases hr
  | cons r rs ih =>
    intro db db2 h x hx
    cases hf : findSalesperson db.salespersons r.assignedSalesperson with
    | none =>
      rw [processRows_cons_notFound db r rs hf] at h
      cases h
    | some sp =>
      cases hL : rowLead r with
      | none =>
        obtain ⟨k, hk⟩ := processRows_cons_invalid db r rs sp hf hL
        rw [hk] at h
        cases h
      | some L =>
        rw [processRows_cons_valid db r rs sp L hf hL] at h
        rcases List.mem_cons.mp hx with he | hm
        · subst he; simp [hf]
        · exact ih (addLead db sp L) db2 h x hm

theorem processRows_append_valid :
    ∀ (pre : List CsvRow) (db : DB),
      (∀ p ∈ pre, (rowLead p).isSome = true ∧
        (findSalesperson db.salespersons p.assignedSalesperson).isSome = true) →
      ∀ rest, ∃ db2, processRows db (pre ++ rest) = processRows db2 rest ∧
        db2.salespersons = db.salespersons := by
  intro pre
  induction pre with
  | nil => intro db hv rest; exact ⟨db, rfl, rfl⟩
  | cons p ps ih =>
    intro db hv rest
    obtain ⟨hL, hf⟩ := hv p (List.mem_cons_self _ _)
    obtain ⟨L, hL⟩ := Option.isSome_iff_exists.mp hL
    obtain ⟨sp, hf⟩ := Option.isSome_iff_exists.mp hf
    obtain ⟨db2, h1, h2⟩ :=
      ih (addLead db sp L) (fun q hq => hv q (List.mem_cons_of_mem _ hq)) rest
    refine ⟨db2, ?_, h2⟩
    rw [List.cons_append, processRows_cons_valid db p (ps ++ rest) sp L hf hL, h1]

/-- C1 counterexample: the CSV `[rowBadSource, rowUnknownSP]` contains a
row referencing the unknown salesperson `Zed`, and the handler does
return 400 with the database unchanged — but the first row's
unresolvable Source raises first, so the response body nowhere names
`Zed`, contradicting the claim's "message naming that username". -/
theorem c1_rollback_counterexample :
    (ingest_leads seedDB [rowBadSource, rowUnknownSP]).1.1 = 400 ∧
    (ingest_leads seedDB [rowBadSource, rowUnknownSP]).2 = seedDB ∧
    containsStr "Zed".toList
      ((ingest_leads seedDB [rowBadSource, rowUnknownSP]).1.2.allText) = false := by
  decide

/-- C1 amended: an ingestion whose CSV references an unknown salesperson
username returns 400 with the database unchanged (nothing committed);
and whenever every row before the offending one resolves fully, the
response body is exactly the `Salesperson '<username>' not found` error
naming that username. -/
theorem c1_rollback_unknown_salesperson (db : DB) (rows : List CsvRow)
    (h : ∃ r ∈ rows, findSalesperson db.salespersons r.assignedSalesperson = none) :
    (ingest_leads db rows).1.1 = 400 ∧ (ingest_leads db rows).2 = db ∧
    (∀ pre r post, rows = pre ++ r :: post →
      findSalesperson db.salespersons r.assignedSalesperson = none →
      (∀ p ∈ pre, (rowLead p).isSome = true ∧
        (findSalesperson db.salespersons p.assignedSalesperson).isSome = true) →
      (ingest_leads db rows).1.2 = notFoundBody r.assignedSalesperson) := by
  have herr : ∀ db2, processRows db rows ≠ .ok db2 := by
    intro db2 hok
    obtain ⟨r, hr, hn⟩ := h
    have hsome := processRows_ok_found rows db db2 hok r hr
    rw [hn] at hsome
    cases hsome
  refine ⟨?_, ?_, ?_⟩
  · cases hp : processRows db rows with
    | ok db2 => exact absurd hp (herr db2)
    | error e => cases e <;> simp [ingest_leads, hp]
  · cases hp : processRows db rows with
    | ok db2 => exact absurd hp (herr db2)
    | error e => cases e <;> simp [ingest_leads, hp]
  · intro pre r post hro hn hv
    obtain ⟨db2, h1, h2⟩ := processRows_append_valid pre db hv (r :: post)
    have hn2 : findSalesperson db2.salespersons r.assignedSalesperson = none := by
      rw [h2]
      exact hn
    have hr2 := processRows_cons_notFound db2 r post hn2
    subst hro
    simp [ingest_leads, h1, hr2]

/-- Witness for the amended C1: a valid row followed by a `Zed` row
gives 400, an unchanged database, and the error naming `Zed`. -/
theorem c1_rollback_unknown_salesperson_witness :
    (ingest_leads seedDB [rowAlice, rowUnknownSP]).1.1 = 400 ∧
    (ingest_leads seedDB [rowAlice, rowUnknownSP]).2 = seedDB ∧
    (ingest_leads seedDB [rowAlice, rowUnknownSP]).1.2 = notFoundBody "Zed".toList :=
  have h := c1_rollback_unknown_salesperson seedDB [rowAlice, rowUnknownSP] (by decide)
  ⟨h.1, h.2.1, h.2.2 [rowAlice] rowUnknownSP [] rfl (by decide) (by decide)⟩

theorem processRows_valid_ok :
    ∀ (rows : List CsvRow) (db : DB),
      (∀ r ∈ rows, (rowLead r).isSome = true ∧
        (findSalesperson db.salespersons r.assignedSalesperson).isSome = true) →
      processRows db rows = .ok
        { leads := db.leads ++ newLeads db.nextLeadId rows
          salespersons := db.salespersons
          assignments := db.assignments ++ newAssigns db.salespersons db.nextLeadId rows
          nextLeadId := db.nextLeadId + rows.length } := by
  intro rows
  induction rows with
  | nil => intro db hv; simp [processRows, newLeads, newAssigns]
  | cons r rs ih =>
    intro db hv
    obtain ⟨hL, hf⟩ := hv r (List.mem_cons_self _ _)
    obtain ⟨L, hL⟩ := Option.isSome_iff_exists.mp hL
    obtain ⟨sp, hf⟩ := Option.isSome_iff_exists.mp hf
    rw [processRows_cons_valid db r rs sp L hf hL,
      ih (addLead db sp L) (fun q hq => hv q (List.mem_cons_of_mem _ hq))]
    simp only [addLead, newLeads, newAssigns, hL, hf]
    have hn : db.nextLeadId + 1 + rs.length = db.nextLeadId + (rs.length + 1) := by omega
    simp [List.append_assoc, hn]

theorem newLeads_length :
    ∀ (rows : List CsvRow) (n : Nat),
      (∀ r ∈ rows, (rowLead r).isSome = true) →
      (newLeads n rows).length = rows.length := by
  intro rows
  induction rows with
  | nil => intro n hv; rfl
  | cons r rs ih =>
    intro n hv
    obtain ⟨L, hL⟩ := Option.isSome_iff_exists.mp (hv r (List.mem_cons_self _ _))
    simp [newLeads, hL, ih (n + 1) (fun q hq => hv q (List.mem_cons_of_mem _ hq))]

theorem newLeads_get :
    ∀ (rows : List CsvRow) (n i : Nat) (hi : i < rows.length) (L : LeadRec),
      (∀ r ∈ rows, (rowLead r).isSome = true) →
      rowLead (rows.get ⟨i, hi⟩) = some L →
      (n + i, L) ∈ newLeads n rows := by
  intro rows
  induction rows with
  | nil => intro n i hi; cases hi
  | cons r rs ih =>
    intro n i hi L hv hL
    obtain ⟨L0, hr⟩ := Option.isSome_iff_exists.mp (hv r (List.mem_cons_self _ _))
    cases i with
    | zero =>
      simp only [List.get] at hL
      simp [newLeads, hL]
    | succ j =>
      simp only [List.get] at hL
      have hm := ih (n + 1) j (Nat.lt_of_succ_lt_succ hi) L
        (fun q hq => hv q (List.mem_cons_of_mem _ hq)) hL
      have he : n + 1 + j = n + (j + 1) := by omega
      rw [he] at hm
      rw [show newLeads n (r :: rs) = (n, L0) :: newLeads (n + 1) rs from by
        simp [newLeads, hr]]
      exact List.mem_cons_of_mem _ hm

theorem newAssigns_second_ge :
    ∀ (rows : List CsvRow) (sps : List SalespersonRec) (n : Nat) (a : Nat × Nat),
      a ∈ newAssigns sps n rows → n ≤ a.2 := by
  intro rows
  induction rows with
  | nil => intro sps n a ha; cases ha
  | cons r rs ih =>
    intro sps n a ha
    unfold newAssigns at ha
    cases hf : findSalesperson sps r.assignedSalesperson with
    | none => rw [hf] at ha; cases ha
    | some sp =>
      rw [hf] at ha
      rcases List.mem_cons.mp ha with he | hm
      · subst he; exact Nat.le_refl n
      · exact Nat.le_of_succ_le (ih sps (n + 1) a hm)

theorem newAssigns_filter_eq :
    ∀ (rows : List CsvRow) (sps : List SalespersonRec) (n i : Nat) (hi : i < rows.length)
      (sp : SalespersonRec),
      findSalesperson sps ((rows.get ⟨i, hi⟩).assignedSalesperson) = some sp →
      (∀ r ∈ rows, (findSalesperson sps r.assignedSalesperson).isSome = true) →
      (newAssigns sps n rows).filter (fun a => a.2 = n + i) = [(sp.id, n + i)] := by
  intro rows
  induction rows with
  | nil => intro sps n i hi; cases hi
  | cons r rs ih =>
    intro sps n i hi sp hf hv
    cases i with
    | zero =>
      simp only [List.get] at hf
      simp [newAssigns, hf]
      intro a b hab
      have hge := newAssigns_second_ge rs sps (n + 1) (a, b) hab
      simp only at hge
      omega
    | succ j =>
      simp only [List.get] at hf
      obtain ⟨sp0, hf0⟩ := Option.isSome_iff_exists.mp (hv r (List.mem_cons_self _ _))
      have htail := ih sps (n + 1) j (Nat.lt_of_succ_lt_succ hi) sp hf
        (fun q hq => hv q (List.mem_cons_of_mem _ hq))
      have he : n + 1 + j = n + (j + 1) := by omega
      rw [he] at htail
      have hhead : ¬(sp0.id, n).2 = n + (j + 1) := by simp
      simp [newAssigns, hf0, hhead, htail]

/-- C7: a successful ingestion of valid rows (known salesperson, all
three enum texts resolvable) returns 201 and creates exactly one lead
per row: the new leads table is the old one plus one record per row
carrying the row's lead id, name, contact info and resolved enums, and
each new lead's sole assignment pairs it with its row's resolved
salesperson. -/
theorem c7_valid_rows_create_leads (db : DB) (rows : List CsvRow)
    (hv : ∀ r ∈ rows, (rowLead r).isSome = true ∧
      (findSalesperson db.salespersons r.assignedSalesperson).isSome = true)
    (hold : ∀ a ∈ db.assignments, a.2 < db.nextLeadId) :
    (ingest_leads db rows).1 = (201, successBody) ∧
    ((ingest_leads db rows).2).leads = db.leads ++ newLeads db.nextLeadId rows ∧
    ((ingest_leads db rows).2).leads.length = db.leads.length + rows.length ∧
    (∀ i (hi : i < rows.length) (L : LeadRec) (sp : SalespersonRec),
      rowLead (rows.get ⟨i, hi⟩) = some L →
      findSalesperson db.salespersons ((rows.get ⟨i, hi⟩).assignedSalesperson) = some sp →
      (db.nextLeadId + i, L) ∈ ((ingest_leads db rows).2).leads ∧
      ((ingest_leads db rows).2).assignments.filter (fun a => a.2 = db.nextLeadId + i)
        = [(sp.id, db.nextLeadId + i)]) := by
  have hok := processRows_valid_ok rows db hv
  have hres : ingest_leads db rows = ((201, successBody),
      { leads := db.leads ++ newLeads db.nextLeadId rows
        salespersons := db.salespersons
        assignments := db.assignments ++ newAssigns db.salespersons db.nextLeadId rows
        nextLeadId := db.nextLeadId + rows.length }) := by
    simp [ingest_leads, hok]
  rw [hres]
  refine ⟨rfl, rfl, ?_, ?_⟩
  · simp [List.length_append,
      newLeads_length rows db.nextLeadId (fun r hr => (hv r hr).1)]
  · intro i hi L sp hL hf
    constructor
    · exact List.mem_append_right _
        (newLeads_get rows db.nextLeadId i hi L (fun r hr => (hv r hr).1) hL)
    · rw [List.filter_append]
      have hold2 : db.assignments.filter (fun a => a.2 = db.nextLeadId + i) = [] := by
        rw [List.filter_eq_nil_iff]
        intro a ha
        have hlt := hold a ha
        simp only [decide_eq_true_eq]
        omega
      rw [hold2,
        newAssigns_filter_eq rows db.salespersons db.nextLeadId i hi sp hf
          (fun r hr => (hv r hr).2)]
      simp

/-- Witness for C7: ingesting two valid rows into the seeded database
creates two leads; the first is Alice's resolved record with its sole
assignment to Alice. -/
theorem c7_valid_rows_create_leads_witness :
    (ingest_leads seedDB [rowAlice, rowBob]).1 = (201, successBody) ∧
    ((ingest_leads seedDB [rowAlice, rowBob]).2).leads.length
      = seedDB.leads.length + 2 ∧
    (seedDB.nextLeadId + 0, rowAliceLead)
      ∈ ((ingest_leads seedDB [rowAlice, rowBob]).2).leads ∧
    ((ingest_leads seedDB [rowAlice, rowBob]).2).assignments.filter
        (fun a => a.2 = seedDB.nextLeadId + 0)
      = [(aliceSP.id, seedDB.nextLeadId + 0)] :=
  have h := c7_valid_rows_create_leads seedDB [rowAlice, rowBob] (by decide) (by decide)
  have h4 := h.2.2.2 0 (by decide) rowAliceLead aliceSP (by decide) (by decide)
  ⟨h.1, h.2.2.1, h4.1, h4.2⟩
